import Mathlib

/-!
Verification of the BMC user-provisioning engine and RPC façade of the
talos-metal-agent repository.

The definitions below are a shallow embedding of the Go source:
  * internal/ipmi/ipmi.go   — `AttemptUserSetup`, `UserExists`, `GetIPPort`
  * internal/service/service.go — RPC handlers, `runSingleflight`, `WipeDisks`

The BMC is modelled as explicit state: the per-slot outcome of the
"get user name" IPMI command (which may fail at the protocol level or
succeed with a name), the per-slot password / access / enabled fields that
the set-commands write, and the LAN-configuration parameter table.  IPMI
write commands are modelled as succeeding and updating this state; the
error propagation of a failing write is not needed by any claim below.
-/

namespace MetalAgent

/-- Outcome of the IPMI "get user name" command for one slot: either a
protocol-level failure, or success carrying the slot's name string. -/
inductive NameQuery where
  | err : NameQuery
  | ok : String → NameQuery
deriving DecidableEq, Repr

/-- One IPMI write command issued by `AttemptUserSetup`
(set-username, set-password, set-access, enable-user). -/
inductive Cmd where
  | setName : Nat → String → Cmd
  | setPass : Nat → String → Cmd
  | setAccess : Nat → Nat → Nat → Nat → Cmd
  | enable : Nat → Cmd
deriving DecidableEq, Repr

/-- The BMC state visible through the IPMI client of ipmi.go:
whether the user-summary read fails, the raw max-users byte from the
user-summary response, the per-slot name-query behaviour, the writable
per-slot fields, and the LAN-configuration parameter table
(`lan p` is the `Data` payload of a "get LAN config" read of parameter
`p`, or a transport error). -/
structure BMCState where
  summaryErr : Bool
  maxUsersRaw : Nat
  names : Nat → NameQuery
  passwords : Nat → String
  access : Nat → Nat × Nat × Nat
  enabled : Nat → Bool
  lan : Nat → Except String (List Nat)

/-- Go: `maxUsers := summResp.MaxUsers & 0x1F` — only bits [0:5] count. -/
def maskMaxUsers (raw : Nat) : Nat := raw &&& 0x1F

/-- The slot ids scanned by `AttemptUserSetup`: `for i := uint8(2); i <= maxUsers; i++`. -/
def slotIDs (maxUsers : Nat) : List Nat := List.range' 2 (maxUsers - 1)

/-- White space as Go's `unicode.IsSpace` classifies it (Latin-1 range; the
rarer White_Space code points above Latin-1 never occur in the names compared
here). -/
def goIsSpace (c : Char) : Bool :=
  c = ' ' || c = '\t' || c = '\n' || c = '\u000b' || c = '\u000c' || c = '\r'
    || c = '\u0085' || c = '\u00A0'

/-- Go's `strings.TrimSpace` (stdlib, outside src/), modelled on the
character list: drop white space from both ends. -/
def trimSpace (s : String) : String :=
  String.mk (((s.data.dropWhile goIsSpace).reverse.dropWhile goIsSpace).reverse)

/-- Go: `userRes.Username == "" || strings.TrimSpace(userRes.Username) == "(Empty User)"`. -/
def isEmptyName (s : String) : Bool := s == "" || trimSpace s == "(Empty User)"

/-- The loop body of `AttemptUserSetup`'s scan over the user table.
The accumulator is the pair `(exists, userID)` of the Go code; a
protocol failure records the slot as candidate if none is recorded yet;
a successful exact match returns immediately (`break`); a successful
empty name records the slot if no candidate is recorded yet. -/
def scanLoop (u : String) : List (Nat × NameQuery) → Bool × Nat → Bool × Nat
  | [], acc => acc
  | (i, q) :: rest, (ex, uid) =>
    match q with
    | NameQuery.err => scanLoop u rest (ex, if uid = 0 then i else uid)
    | NameQuery.ok n =>
      if n == u then (true, i)
      else if isEmptyName n && (uid == 0) then scanLoop u rest (ex, i)
      else scanLoop u rest (ex, uid)

/-- The scanned slot/query pairs of a BMC state. -/
def slotQueries (s : BMCState) : List (Nat × NameQuery) :=
  (slotIDs (maskMaxUsers s.maxUsersRaw)).map (fun i => (i, s.names i))

/-- The `(exists, userID)` pair computed by `AttemptUserSetup`'s scan
(initial accumulator `exists = false`, `userID = 0`). -/
def selectSlot (u : String) (s : BMCState) : Bool × Nat :=
  scanLoop u (slotQueries s) (false, 0)

/-- Effect of the IPMI set-username command on the modelled BMC state. -/
def setUserName (s : BMCState) (uid : Nat) (n : String) : BMCState :=
  { s with names := fun i => if i = uid then NameQuery.ok n else s.names i }

/-- Effect of the IPMI set-password command on the modelled BMC state. -/
def setUserPass (s : BMCState) (uid : Nat) (p : String) : BMCState :=
  { s with passwords := fun i => if i = uid then p else s.passwords i }

/-- Effect of the IPMI set-user-access command on the modelled BMC state. -/
def setUserAccess (s : BMCState) (options uid limits session : Nat) : BMCState :=
  { s with access := fun i => if i = uid then (options, limits, session) else s.access i }

/-- Effect of the IPMI enable-user command on the modelled BMC state. -/
def enableUser (s : BMCState) (uid : Nat) : BMCState :=
  { s with enabled := fun i => if i = uid then true else s.enabled i }

/-- `AttemptUserSetup(username, password)` of ipmi.go: read the user summary,
scan slots `2..maxUsers`, fail when no slot was selected, otherwise write the
username (only when the account did not pre-exist), the password, the access
byte triple `0x91 / 0x04 / 0x00` and the enable flag to the selected slot.
Returns the outcome, the final BMC state, and the list of issued write
commands. -/
def attemptUserSetup (username password : String) (s : BMCState) :
    Except String Unit × BMCState × List Cmd :=
  if s.summaryErr then (Except.error "error getting user summary", s, [])
  else
    match selectSlot username s with
    | (ex, uid) =>
      if uid = 0 then (Except.error "no slot available for user", s, [])
      else
        let s1 := if ex then s else setUserName s uid username
        let t1 : List Cmd := if ex then [] else [Cmd.setName uid username]
        let s2 := setUserPass s1 uid password
        let s3 := setUserAccess s2 0x91 uid 0x04 0x00
        let s4 := enableUser s3 uid
        (Except.ok (), s4,
          t1 ++ [Cmd.setPass uid password, Cmd.setAccess 0x91 uid 0x04 0x00, Cmd.enable uid])

/-- The BMC state left behind by a run of `AttemptUserSetup`. -/
def afterSetup (u p : String) (s : BMCState) : BMCState :=
  (attemptUserSetup u p s).2.1

/-- The loop of `UserExists`: scan the given slot ids in order; a failing
name query is skipped; a successful query with a name equal to the argument
returns true immediately. -/
def userExistsScan (u : String) (names : Nat → NameQuery) : List Nat → Bool
  | [] => false
  | i :: rest =>
    match names i with
    | NameQuery.err => userExistsScan u names rest
    | NameQuery.ok n => if n == u then true else userExistsScan u names rest

/-- `UserExists(username)` of ipmi.go: read the user summary, then scan
slots `1..maxUsers` (the reserved slot 1 included). -/
def userExists (u : String) (s : BMCState) : Except String Bool :=
  if s.summaryErr then Except.error "error getting user summary"
  else Except.ok (userExistsScan u s.names (List.range' 1 (maskMaxUsers s.maxUsersRaw)))

/-- Go: `net.IP(ipResp.Data).String()` for a 4-byte payload renders the
dotted-quad IPv4 form.  Payload lengths other than 4 are rendered with a
leading question mark; the 16-byte IPv6 rendering is not modelled, as no
claim concerns it. -/
def ipv4String (l : List Nat) : String :=
  match l with
  | [a, b, c, d] =>
    toString a ++ "." ++ toString b ++ "." ++ toString c ++ "." ++ toString d
  | _ => "?"

/-- Go: `binary.LittleEndian.Uint16(portResp.Data)` — two bytes, little endian. -/
def leUint16 (l : List Nat) : Nat := l.getD 0 0 + 256 * l.getD 1 0

/-- `GetIPPort()` of ipmi.go: read LAN-configuration parameter 3 (the IP
address), then parameter 8 (the port); either failure is returned as-is and
aborts; on success decode dotted-quad IPv4 and little-endian 16-bit port.
The second component records which parameters were read, in order. -/
def getIPPort (s : BMCState) : Except String (String × Nat) × List Nat :=
  match s.lan 3 with
  | Except.error e => (Except.error e, [3])
  | Except.ok ipData =>
    match s.lan 8 with
    | Except.error e => (Except.error e, [3, 8])
    | Except.ok portData =>
      (Except.ok (ipv4String ipData, leUint16 portData), [3, 8])

/-! ### Service layer: WipeDisks (service.go) -/

/-- Wipe method of the batched wipe request:
`storage.BlockDeviceWipeDescriptor_FAST` / `_ZEROES`. -/
inductive WipeMethod where
  | fast : WipeMethod
  | zeroes : WipeMethod
deriving DecidableEq, Repr

/-- The fields of one block device in the Talos inventory that `WipeDisks`
inspects: its id and the read-only / CDROM flags of its spec. -/
structure Disk where
  id : String
  readonly : Bool
  cdrom : Bool
deriving DecidableEq, Repr

/-- One entry of the batched `BlockDeviceWipeRequest`. -/
structure WipeDescriptor where
  device : String
  method : WipeMethod
  skipVolumeCheck : Bool
deriving DecidableEq, Repr

/-- The device loop of `WipeDisks`: skip devices whose spec is read-only or
CDROM, otherwise append a descriptor with the chosen method and
`SkipVolumeCheck: true`. -/
def buildWipeDescriptors (method : WipeMethod) : List Disk → List WipeDescriptor
  | [] => []
  | d :: rest =>
    if d.readonly || d.cdrom then buildWipeDescriptors method rest
    else { device := d.id, method := method, skipVolumeCheck := true } ::
      buildWipeDescriptors method rest

/-- The batched wipe request built by `WipeDisks(zeroes)`:
`method := FAST; if req.Zeroes { method = ZEROES }`, then the device loop. -/
def wipeDisksRequest (zeroes : Bool) (disks : List Disk) : List WipeDescriptor :=
  buildWipeDescriptors (if zeroes then WipeMethod.zeroes else WipeMethod.fast) disks

/-! ### MD5 digest and the singleflight key (service.go `runSingleflight`)

`runSingleflight` computes `key := keyName + "-" + hex(md5.Sum(req.MarshalVT()))`.
The MD5 digest below is the standard algorithm of Go's crypto/md5 (which is
outside this repository), operating on byte lists over Nat with explicit
`% 2^32` wrapping. -/

/-- Wrap to 32 bits. -/
def w32 (n : Nat) : Nat := n % 4294967296

/-- Bitwise complement on 32-bit values. -/
def bnot32 (x : Nat) : Nat := 4294967295 - x

/-- 32-bit left rotation. -/
def rotl32 (x s : Nat) : Nat := (w32 (x <<< s)) ||| (x >>> (32 - s))

/-- Little-endian byte rendering of `v` on `n` bytes. -/
def leBytes (n v : Nat) : List Nat := (List.range n).map (fun i => v / 256 ^ i % 256)

/-- MD5 padding: append 0x80, zero-fill to 56 mod 64, then the bit length on
8 little-endian bytes. -/
def md5Pad (msg : List Nat) : List Nat :=
  msg ++ 0x80 :: (List.replicate ((120 - (msg.length + 1) % 64) % 64) 0
    ++ leBytes 8 (8 * msg.length))

/-- The j-th little-endian 32-bit word of a 64-byte block. -/
def blockWord (block : List Nat) (j : Nat) : Nat :=
  block.getD (4 * j) 0 + 256 * block.getD (4 * j + 1) 0
    + 65536 * block.getD (4 * j + 2) 0 + 16777216 * block.getD (4 * j + 3) 0

/-- The 64 MD5 sine-derived round constants. -/
def md5K : List Nat :=
  [0xd76aa478, 0xe8c7b756, 0x242070db, 0xc1bdceee,
   0xf57c0faf, 0x4787c62a, 0xa8304613, 0xfd469501,
   0x698098d8, 0x8b44f7af, 0xffff5bb1, 0x895cd7be,
   0x6b901122, 0xfd987193, 0xa679438e, 0x49b40821,
   0xf61e2562, 0xc040b340, 0x265e5a51, 0xe9b6c7aa,
   0xd62f105d, 0x02441453, 0xd8a1e681, 0xe7d3fbc8,
   0x21e1cde6, 0xc33707d6, 0xf4d50d87, 0x455a14ed,
   0xa9e3e905, 0xfcefa3f8, 0x676f02d9, 0x8d2a4c8a,
   0xfffa3942, 0x8771f681, 0x6d9d6122, 0xfde5380c,
   0xa4beea44, 0x4bdecfa9, 0xf6bb4b60, 0xbebfbc70,
   0x289b7ec6, 0xeaa127fa, 0xd4ef3085, 0x04881d05,
   0xd9d4d039, 0xe6db99e5, 0x1fa27cf8, 0xc4ac5665,
   0xf4292244, 0x432aff97, 0xab9423a7, 0xfc93a039,
   0x655b59c3, 0x8f0ccc92, 0xffeff47d, 0x85845dd1,
   0x6fa87e4f, 0xfe2ce6e0, 0xa3014314, 0x4e0811a1,
   0xf7537e82, 0xbd3af235, 0x2ad7d2bb, 0xeb86d391]

/-- The 64 MD5 per-round left-rotation amounts. -/
def md5S : List Nat :=
  [7, 12, 17, 22, 7, 12, 17, 22, 7, 12, 17, 22, 7, 12, 17, 22,
   5, 9, 14, 20, 5, 9, 14, 20, 5, 9, 14, 20, 5, 9, 14, 20,
   4, 11, 16, 23, 4, 11, 16, 23, 4, 11, 16, 23, 4, 11, 16, 23,
   6, 10, 15, 21, 6, 10, 15, 21, 6, 10, 15, 21, 6, 10, 15, 21]

/-- The MD5 round mixing function, per round quarter. -/
def md5F (i b c d : Nat) : Nat :=
  if i < 16 then (b &&& c) ||| (bnot32 b &&& d)
  else if i < 32 then (d &&& b) ||| (bnot32 d &&& c)
  else if i < 48 then b ^^^ c ^^^ d
  else c ^^^ (b ||| bnot32 d)

/-- The MD5 message-word index, per round quarter. -/
def md5G (i : Nat) : Nat :=
  if i < 16 then i
  else if i < 32 then (5 * i + 1) % 16
  else if i < 48 then (3 * i + 5) % 16
  else (7 * i) % 16

/-- One MD5 round on the register quadruple. -/
def md5Round (block : List Nat) (st : Nat × Nat × Nat × Nat) (i : Nat) :
    Nat × Nat × Nat × Nat :=
  match st with
  | (a, b, c, d) =>
    (d, w32 (b + rotl32 (w32 (a + md5F i b c d + md5K.getD i 0 + blockWord block (md5G i)))
        (md5S.getD i 0)), b, c)

/-- Process one 64-byte block: 64 rounds, then add back the incoming registers. -/
def md5Block (st0 : Nat × Nat × Nat × Nat) (block : List Nat) : Nat × Nat × Nat × Nat :=
  match st0, (List.range 64).foldl (md5Round block) st0 with
  | (a0, b0, c0, d0), (a, b, c, d) => (w32 (a0 + a), w32 (b0 + b), w32 (c0 + c), w32 (d0 + d))

/-- The four MD5 state words of a message: pad, split into 64-byte blocks,
fold `md5Block` from the standard initial registers. -/
def md5Words (msg : List Nat) : Nat × Nat × Nat × Nat :=
  ((List.range ((md5Pad msg).length / 64)).map
      (fun i => ((md5Pad msg).drop (64 * i)).take 64)).foldl md5Block
    (0x67452301, 0xefcdab89, 0x98badcfe, 0x10325476)

/-- The 16-byte MD5 digest (little-endian rendering of the four state words),
as Go's `md5.Sum` returns it. -/
def md5Bytes (msg : List Nat) : List Nat :=
  leBytes 4 (md5Words msg).1 ++ leBytes 4 (md5Words msg).2.1
    ++ leBytes 4 (md5Words msg).2.2.1 ++ leBytes 4 (md5Words msg).2.2.2

/-- A lowercase hex digit. -/
def hexDigit (n : Nat) : Char :=
  if n < 10 then Char.ofNat (48 + n) else Char.ofNat (87 + n)

/-- Lowercase hex characters of a byte list, two characters per byte
(Go's `hex.EncodeToString`). -/
def hexEncodeChars : List Nat → List Char
  | [] => []
  | b :: rest => hexDigit (b / 16 % 16) :: hexDigit (b % 16) :: hexEncodeChars rest

/-- Lowercase hex string of a byte list. -/
def hexEncode (l : List Nat) : String := String.mk (hexEncodeChars l)

/-- Hex-encoded MD5 digest of a byte list. -/
def md5Hex (b : List Nat) : String := hexEncode (md5Bytes b)

/-- The singleflight key computed by `runSingleflight`:
`key := keyName + "-" + hex.EncodeToString(md5.Sum(b))`. -/
def runSingleflightKey (keyName : String) (body : List Nat) : String :=
  keyName ++ "-" ++ md5Hex body

/-! ### RPC dispatch of the façade (service.go handlers) -/

/-- The five RPC methods of the agent service façade. -/
inductive RPCMethod where
  | hello : RPCMethod
  | getPowerManagement : RPCMethod
  | setPowerManagement : RPCMethod
  | reboot : RPCMethod
  | wipeDisks : RPCMethod
deriving DecidableEq, Repr

/-- Modelled from the spec: the fully-qualified gRPC method names of the five
façade RPCs.  The generated `api/agent` package holding the
`AgentService_*_FullMethodName` constants is outside src/; gRPC full method
names follow the `/package.Service/Method` convention with the method names
the spec lists. -/
def fullMethodName : RPCMethod → String
  | RPCMethod.hello => "/agent.AgentService/Hello"
  | RPCMethod.getPowerManagement => "/agent.AgentService/GetPowerManagement"
  | RPCMethod.setPowerManagement => "/agent.AgentService/SetPowerManagement"
  | RPCMethod.reboot => "/agent.AgentService/Reboot"
  | RPCMethod.wipeDisks => "/agent.AgentService/WipeDisks"

/-- The coalescing key with which each façade handler dispatches its body,
given the serialized request bytes — or `none` when the handler runs its
body directly.  From service.go: `GetPowerManagement`, `SetPowerManagement`,
`Reboot` and `WipeDisks` each call `runSingleflight` with their full method
name; `Hello` returns its response directly and never calls
`runSingleflight`. -/
def dispatchKey : RPCMethod → List Nat → Option String
  | RPCMethod.hello, _ => none
  | m, b => some (runSingleflightKey (fullMethodName m) b)

/-! ### GetPowerManagement (service.go, non-test mode) -/

/-- The IPMI branch of the `GetPowerManagementResponse`. -/
structure PowerManagementIPMI where
  address : String
  port : Nat
  userExists : Bool
deriving DecidableEq, Repr

/-- The body of `GetPowerManagement` in non-test mode, given an opened IPMI
client on BMC state `s` (client-factory failure, which would abort before any
IPMI exchange, is not modelled): read the LAN endpoint via `GetIPPort`, then
check `checkUsername` via `UserExists`, and return
`{address, port, userExists}`; either failure aborts with a wrapped error. -/
def getPowerManagementBody (checkUsername : String) (s : BMCState) :
    Except String PowerManagementIPMI :=
  match (getIPPort s).1 with
  | Except.error e => Except.error ("error getting bmc ip port: " ++ e)
  | Except.ok ipPort =>
    match userExists checkUsername s with
    | Except.error e =>
      Except.error ("error checking if user " ++ checkUsername ++ " exists: " ++ e)
    | Except.ok ex => Except.ok { address := ipPort.1, port := ipPort.2, userExists := ex }

/-! ### Cancellation behaviour of a coalesced call (service.go `runSingleflight`)

`runSingleflight` hands the operation closure to `singleflight.DoChan` and then
selects between the caller's context and the flight's result channel: a caller
whose context is done receives `ctx.Err()`; otherwise it receives the shared
flight outcome.  The `Reboot` handler's closure is
`func() { s.talosClient.Reboot(ctx, WithPowerCycle) }` where `ctx` is the
context of the call that started the flight — the initiating caller's
cancellation is therefore visible inside the shared operation. -/

/-- The select of `runSingleflight`, per waiting caller: if the caller's own
context is done it receives its own context error, otherwise the shared
flight outcome. -/
def waiterResult (ownCtxDone : Bool) (ownCtxErr : String)
    (flight : Except String Unit) : Except String Unit :=
  if ownCtxDone then Except.error ownCtxErr else flight

/-- Modelled from the spec: the control-plane reboot call
(`talosClient.Reboot`, outside src/) — a gRPC round trip made with an
already-cancelled context fails with the context's cancellation error,
otherwise it completes. -/
def controlPlaneReboot (ctxCancelled : Bool) : Except String Unit :=
  if ctxCancelled then Except.error "context canceled" else Except.ok ()

/-- The shared flight outcome of a coalesced `Reboot`: the closure passed to
`DoChan` captures the initiating call's context and passes it to the
control-plane reboot. -/
def rebootFlight (initiatorCtxCancelled : Bool) : Except String Unit :=
  controlPlaneReboot initiatorCtxCancelled

/-! ### Spec-level vocabulary for the scan, and concrete demonstration states -/

/-- A name-query outcome that the scan treats as "this account already
exists": success with a name equal to the requested username. -/
def matchesQ (u : String) : NameQuery → Bool
  | NameQuery.err => false
  | NameQuery.ok n => n == u

/-- A name-query outcome that the scan treats as a claimable candidate:
a protocol failure, or success with an empty / "(Empty User)" name. -/
def claimableQ : NameQuery → Bool
  | NameQuery.err => true
  | NameQuery.ok n => isEmptyName n

/-- First slot id in the list whose query outcome is an exact match. -/
def firstMatch (u : String) : List (Nat × NameQuery) → Option Nat
  | [] => none
  | (i, q) :: rest => if matchesQ u q then some i else firstMatch u rest

/-- First slot id in the list whose query outcome is claimable. -/
def firstClaimable : List (Nat × NameQuery) → Option Nat
  | [] => none
  | (i, q) :: rest => if claimableQ q then some i else firstClaimable rest

/-- A BMC state with nothing configured, used as the base of the concrete
demonstration states below. -/
def baseState : BMCState :=
  { summaryErr := false
    maxUsersRaw := 0
    names := fun _ => NameQuery.err
    passwords := fun _ => ""
    access := fun _ => (0, 0, 0)
    enabled := fun _ => false
    lan := fun _ => Except.error "unreachable" }

/-- Three user slots; slot 2 fails its name query, slot 3 answers with an
empty name. -/
def failThenEmptyState : BMCState :=
  { baseState with
    maxUsersRaw := 3
    names := fun i => if i = 3 then NameQuery.ok "" else NameQuery.err }

/-- Five user slots; slot 2 is empty, slot 3 holds "sidero", the rest fail. -/
def emptyThenMatchState : BMCState :=
  { baseState with
    maxUsersRaw := 5
    names := fun i =>
      if i = 2 then NameQuery.ok ""
      else if i = 3 then NameQuery.ok "sidero"
      else NameQuery.err }

/-- Two user slots; slot 2 answers with an empty name. -/
def oneEmptySlotState : BMCState :=
  { baseState with
    maxUsersRaw := 2
    names := fun i => if i = 2 then NameQuery.ok "" else NameQuery.err }

/-- Three user slots, all occupied by foreign non-empty names. -/
def fullTableState : BMCState :=
  { baseState with
    maxUsersRaw := 3
    names := fun i =>
      if i = 2 then NameQuery.ok "root"
      else if i = 3 then NameQuery.ok "other"
      else NameQuery.err }

/-- A single user slot (the reserved slot 1), holding "admin". -/
def slot1OnlyState : BMCState :=
  { baseState with
    maxUsersRaw := 1
    names := fun i => if i = 1 then NameQuery.ok "admin" else NameQuery.err }

/-- Two user slots with slot 2 empty, and a LAN table answering parameter 3
with the address bytes 192.168.1.50 and parameter 8 with the little-endian
port bytes of 623. -/
def powerDemoState : BMCState :=
  { baseState with
    maxUsersRaw := 2
    names := fun i => if i = 2 then NameQuery.ok "" else NameQuery.err
    lan := fun p =>
      if p = 3 then Except.ok [192, 168, 1, 50]
      else if p = 8 then Except.ok [111, 2]
      else Except.error "unreachable" }

/-- A LAN table whose IP-address parameter read fails with a bare transport
error. -/
def lanIpFailState : BMCState :=
  { baseState with
    lan := fun p => if p = 3 then Except.error "send failed" else Except.ok [0, 0] }

/-- A LAN table whose IP-address read succeeds but whose port parameter read
fails with the same bare transport error. -/
def lanPortFailState : BMCState :=
  { baseState with
    lan := fun p =>
      if p = 3 then Except.ok [192, 168, 1, 50]
      else if p = 8 then Except.error "send failed"
      else Except.error "unreachable" }

/-- A demonstration inventory: a writable disk, an optical drive and a
read-only device. -/
def demoDisks : List Disk :=
  [{ id := "sda", readonly := false, cdrom := false },
   { id := "sr0", readonly := false, cdrom := true },
   { id := "loop0", readonly := true, cdrom := false }]

/-! ### Lemmas about the scanning loop -/

theorem matchesQ_eq_true_iff (u : String) (q : NameQuery) :
    matchesQ u q = true ↔ q = NameQuery.ok u := by
  cases q with
  | err => simp [matchesQ]
  | ok n => simp [matchesQ]

theorem matchesQ_eq_false_iff (u : String) (q : NameQuery) :
    matchesQ u q = false ↔ q ≠ NameQuery.ok u := by
  rw [Bool.eq_false_iff, Ne, matchesQ_eq_true_iff]

theorem scanLoop_snd_mem (u : String) (l : List (Nat × NameQuery)) :
    ∀ ex uid0, (scanLoop u l (ex, uid0)).2 = uid0 ∨
      (scanLoop u l (ex, uid0)).2 ∈ l.map Prod.fst := by
  induction l with
  | nil => intro ex uid0; simp [scanLoop]
  | cons p rest ih =>
    intro ex uid0
    obtain ⟨i, q⟩ := p
    cases q with
    | err =>
      simp only [scanLoop]
      by_cases h0 : uid0 = 0
      · rw [if_pos h0]
        rcases ih ex i with h | h
        · right; simp [h]
        · right; simp only [List.map_cons]; exact List.mem_cons_of_mem _ h
      · rw [if_neg h0]
        rcases ih ex uid0 with h | h
        · left; exact h
        · right; simp only [List.map_cons]; exact List.mem_cons_of_mem _ h
    | ok n =>
      by_cases hm : (n == u) = true
      · simp [scanLoop, hm]
      · by_cases he : (isEmptyName n && (uid0 == 0)) = true
        · have h := ih ex i
          simp only [scanLoop, hm, he] at h ⊢
          simp only [Bool.false_eq_true, if_false, if_pos rfl]
          rcases h with h | h
          · right; simp [h]
          · right; simp [h]
        · have h := ih ex uid0
          simp only [scanLoop, hm, he] at h ⊢
          simp only [Bool.false_eq_true, if_false]
          rcases h with h | h
          · left; exact h
          · right; simp [h]

theorem scanLoop_eq (u : String) (l : List (Nat × NameQuery)) :
    ∀ uid0 : Nat, (∀ p ∈ l, p.1 ≠ 0) →
    scanLoop u l (false, uid0) =
      (match firstMatch u l with
      | some k => (true, k)
      | none => (false, if uid0 = 0 then (firstClaimable l).getD 0 else uid0)) := by
  induction l with
  | nil =>
    intro uid0 _
    simp only [scanLoop, firstMatch, firstClaimable]
    by_cases h0 : uid0 = 0
    · simp [h0]
    · simp [h0]
  | cons p rest ih =>
    intro uid0 hpos
    obtain ⟨i, q⟩ := p
    have hi : i ≠ 0 := hpos (i, q) (by simp)
    have hrest : ∀ p ∈ rest, p.1 ≠ 0 := fun p hp => hpos p (by simp [hp])
    cases q with
    | err =>
      have h := ih (if uid0 = 0 then i else uid0) hrest
      simp only [scanLoop] at h ⊢
      rw [h]
      simp only [firstMatch, firstClaimable, matchesQ, claimableQ, Bool.false_eq_true,
        if_false, if_pos rfl]
      cases hfm : firstMatch u rest with
      | some k => simp
      | none =>
        by_cases h0 : uid0 = 0
        · simp [h0, hi]
        · simp [h0]
    | ok n =>
      by_cases hm : (n == u) = true
      · simp [scanLoop, hm, firstMatch, matchesQ]
      · by_cases he : isEmptyName n = true
        · by_cases h0 : uid0 = 0
          · have h := ih i hrest
            simp only [scanLoop, hm, he, h0, Bool.false_eq_true, if_false] at h ⊢
            simp only [beq_self_eq_true, Bool.and_true, if_pos rfl] at h ⊢
            rw [h]
            simp only [firstMatch, firstClaimable, matchesQ, claimableQ, hm, he,
              Bool.false_eq_true, if_false, if_pos rfl]
            cases hfm : firstMatch u rest with
            | some k => simp
            | none => simp [hi]
          · have h := ih uid0 hrest
            have hb : (uid0 == 0) = false := by simp [h0]
            simp only [scanLoop, hm, he, hb, Bool.and_false, Bool.false_eq_true, if_false] at h ⊢
            rw [h]
            simp only [firstMatch, firstClaimable, matchesQ, claimableQ, hm, he,
              Bool.false_eq_true, if_false, if_pos rfl]
            cases hfm : firstMatch u rest with
            | some k => simp
            | none => simp [h0]
        · have h := ih uid0 hrest
          have hcb : claimableQ (NameQuery.ok n) = false := by
            simp [claimableQ, Bool.eq_false_iff, he]
          simp only [scanLoop, hm, he, Bool.false_and, Bool.false_eq_true, if_false] at h ⊢
          rw [h]
          simp only [firstMatch, firstClaimable, matchesQ, hcb, hm, Bool.false_eq_true,
            if_false]

theorem mem_slotIDs {m i : Nat} : i ∈ slotIDs m ↔ 2 ≤ i ∧ i ≤ m := by
  simp only [slotIDs, List.mem_range'_1]
  omega

theorem slotIDs_pairwise (m : Nat) : (slotIDs m).Pairwise (· < ·) :=
  List.pairwise_lt_range' 2 (m - 1)

theorem slotQueries_pos (s : BMCState) : ∀ p ∈ slotQueries s, p.1 ≠ 0 := by
  intro p hp
  simp only [slotQueries, List.mem_map] at hp
  obtain ⟨i, hi, rfl⟩ := hp
  have h := mem_slotIDs.1 hi
  omega

theorem selectSlot_eq (u : String) (s : BMCState) :
    selectSlot u s =
      (match firstMatch u (slotQueries s) with
      | some k => (true, k)
      | none => (false, (firstClaimable (slotQueries s)).getD 0)) := by
  have h := scanLoop_eq u (slotQueries s) 0 (slotQueries_pos s)
  rw [selectSlot, h]
  cases firstMatch u (slotQueries s) <;> simp

theorem firstMatch_map_none_iff (u : String) (f : Nat → NameQuery) (l : List Nat) :
    firstMatch u (l.map fun i => (i, f i)) = none ↔ ∀ i ∈ l, matchesQ u (f i) = false := by
  induction l with
  | nil => simp [firstMatch]
  | cons a rest ih =>
    by_cases ha : matchesQ u (f a) = true
    · simp [firstMatch, ha]
    · have ha' : matchesQ u (f a) = false := by simp [Bool.eq_false_iff, ha]
      simp [firstMatch, ha', ih]

theorem firstMatch_map_eq_some (u : String) (f : Nat → NameQuery) (l : List Nat) (k : Nat)
    (hp : l.Pairwise (· < ·)) (hk : k ∈ l) (hm : matchesQ u (f k) = true)
    (hno : ∀ i ∈ l, i < k → matchesQ u (f i) = false) :
    firstMatch u (l.map fun i => (i, f i)) = some k := by
  induction l with
  | nil => cases hk
  | cons a rest ih =>
    by_cases hak : a = k
    · subst hak; simp [firstMatch, hm]
    · have hkr : k ∈ rest := by
        rcases List.mem_cons.1 hk with h | h
        · exact absurd h.symm hak
        · exact h
      have hlt : a < k := (List.pairwise_cons.1 hp).1 k hkr
      have hfa : matchesQ u (f a) = false := hno a (by simp) hlt
      simp only [List.map_cons, firstMatch, hfa, Bool.false_eq_true, if_false]
      exact ih (List.pairwise_cons.1 hp).2 hkr fun i hi hik => hno i (by simp [hi]) hik

theorem firstMatch_map_mem (u : String) (f : Nat → NameQuery) (l : List Nat) :
    ∀ k, firstMatch u (l.map fun i => (i, f i)) = some k →
      k ∈ l ∧ matchesQ u (f k) = true := by
  induction l with
  | nil => intro k h; simp [firstMatch] at h
  | cons a rest ih =>
    intro k h
    by_cases ha : matchesQ u (f a) = true
    · simp only [List.map_cons, firstMatch] at h
      rw [if_pos ha] at h
      injection h with h
      subst h; exact ⟨by simp, ha⟩
    · have ha' : matchesQ u (f a) = false := by simp [Bool.eq_false_iff, ha]
      simp only [List.map_cons, firstMatch, ha', Bool.false_eq_true, if_false] at h
      obtain ⟨h1, h2⟩ := ih k h
      exact ⟨by simp [h1], h2⟩

theorem firstClaimable_map_none_iff (f : Nat → NameQuery) (l : List Nat) :
    firstClaimable (l.map fun i => (i, f i)) = none ↔ ∀ i ∈ l, claimableQ (f i) = false := by
  induction l with
  | nil => simp [firstClaimable]
  | cons a rest ih =>
    by_cases ha : claimableQ (f a) = true
    · simp [firstClaimable, ha]
    · have ha' : claimableQ (f a) = false := by simp [Bool.eq_false_iff, ha]
      simp [firstClaimable, ha', ih]

theorem firstClaimable_map_mem (f : Nat → NameQuery) (l : List Nat) :
    ∀ k, firstClaimable (l.map fun i => (i, f i)) = some k →
      k ∈ l ∧ claimableQ (f k) = true := by
  induction l with
  | nil => intro k h; simp [firstClaimable] at h
  | cons a rest ih =>
    intro k h
    by_cases ha : claimableQ (f a) = true
    · simp only [List.map_cons, firstClaimable] at h
      rw [if_pos ha] at h
      injection h with h
      subst h; exact ⟨by simp, ha⟩
    · have ha' : claimableQ (f a) = false := by simp [Bool.eq_false_iff, ha]
      simp only [List.map_cons, firstClaimable, ha', Bool.false_eq_true, if_false] at h
      obtain ⟨h1, h2⟩ := ih k h
      exact ⟨by simp [h1], h2⟩

theorem selectSlot_congr (u : String) (s s' : BMCState)
    (h1 : s'.maxUsersRaw = s.maxUsersRaw)
    (h2 : ∀ i ∈ slotIDs (maskMaxUsers s.maxUsersRaw), s'.names i = s.names i) :
    selectSlot u s' = selectSlot u s := by
  have hq : slotQueries s' = slotQueries s := by
    simp only [slotQueries, h1]
    exact List.map_congr_left fun i hi => by rw [h2 i hi]
  rw [selectSlot, selectSlot, hq]

theorem attemptUserSetup_success (u p : String) (s : BMCState) (ex0 : Bool) (t : Nat)
    (hsum : s.summaryErr = false) (hsel : selectSlot u s = (ex0, t)) (ht : t ≠ 0) :
    attemptUserSetup u p s =
      (Except.ok (),
       enableUser (setUserAccess (setUserPass (if ex0 then s else setUserName s t u) t p)
         0x91 t 0x04 0x00) t,
       (if ex0 then [] else [Cmd.setName t u]) ++
         [Cmd.setPass t p, Cmd.setAccess 0x91 t 0x04 0x00, Cmd.enable t]) := by
  rw [attemptUserSetup, hsum, hsel]
  simp [ht]

/-- The BMC state after one (successful or failed) `AttemptUserSetup` run. -/
theorem afterSetup_eq (u p : String) (s : BMCState) (ex0 : Bool) (t : Nat)
    (hsum : s.summaryErr = false) (hsel : selectSlot u s = (ex0, t)) (ht : t ≠ 0) :
    afterSetup u p s =
      enableUser (setUserAccess (setUserPass (if ex0 then s else setUserName s t u) t p)
        0x91 t 0x04 0x00) t := by
  rw [afterSetup, attemptUserSetup_success u p s ex0 t hsum hsel ht]

theorem selectSlot_of_match (u : String) (s : BMCState) (t : Nat)
    (hk : t ∈ slotIDs (maskMaxUsers s.maxUsersRaw))
    (hmatch : matchesQ u (s.names t) = true)
    (hno : ∀ i ∈ slotIDs (maskMaxUsers s.maxUsersRaw), i < t → matchesQ u (s.names i) = false) :
    selectSlot u s = (true, t) := by
  rw [selectSlot_eq]
  have h : firstMatch u (slotQueries s) = some t :=
    firstMatch_map_eq_some u s.names (slotIDs (maskMaxUsers s.maxUsersRaw)) t
      (slotIDs_pairwise _) hk hmatch hno
  rw [slotQueries] at h
  simp [slotQueries, h]

theorem selectSlot_after (u p : String) (s : BMCState) (ex0 : Bool) (t : Nat)
    (hsum : s.summaryErr = false) (hsel : selectSlot u s = (ex0, t)) (ht : t ≠ 0) :
    selectSlot u (afterSetup u p s) = (true, t) := by
  have hst := afterSetup_eq u p s ex0 t hsum hsel ht
  cases ex0 with
  | true =>
    have hc : selectSlot u (afterSetup u p s) = selectSlot u s := by
      apply selectSlot_congr
      · rw [hst]; rfl
      · intro i _; rw [hst]; rfl
    rw [hc, hsel]
  | false =>
    have hsel' := selectSlot_eq u s
    rw [hsel] at hsel'
    cases hfm : firstMatch u (slotQueries s) with
    | some k => rw [hfm] at hsel'; simp at hsel'
    | none =>
      rw [hfm] at hsel'
      simp only [Prod.mk.injEq] at hsel'
      have hnomatch : ∀ i ∈ slotIDs (maskMaxUsers s.maxUsersRaw),
          matchesQ u (s.names i) = false := by
        have := (firstMatch_map_none_iff u s.names (slotIDs (maskMaxUsers s.maxUsersRaw))).1
        rw [← slotQueries] at this
        exact this hfm
      have hfc : firstClaimable (slotQueries s) = some t := by
        cases hfc : firstClaimable (slotQueries s) with
        | none => rw [hfc] at hsel'; simp at hsel'; omega
        | some c => rw [hfc] at hsel'; simp at hsel'; rw [hsel']
      have hmem : t ∈ slotIDs (maskMaxUsers s.maxUsersRaw) := by
        have := firstClaimable_map_mem s.names (slotIDs (maskMaxUsers s.maxUsersRaw)) t
        rw [← slotQueries] at this
        exact (this hfc).1
      have hm' : (afterSetup u p s).maxUsersRaw = s.maxUsersRaw := by rw [hst]; rfl
      have hn' : ∀ i, (afterSetup u p s).names i =
          if i = t then NameQuery.ok u else s.names i := by
        intro i; rw [hst]; rfl
      apply selectSlot_of_match
      · rw [hm']; exact hmem
      · rw [hn' t, if_pos rfl, matchesQ_eq_true_iff]
      · intro i hi hit
        rw [hm'] at hi
        rw [hn' i, if_neg (by omega)]
        exact hnomatch i hi

theorem userExistsScan_iff (u : String) (names : Nat → NameQuery) (l : List Nat) :
    userExistsScan u names l = true ↔ ∃ i ∈ l, names i = NameQuery.ok u := by
  induction l with
  | nil => simp [userExistsScan]
  | cons a rest ih =>
    cases ha : names a with
    | err =>
      simp only [userExistsScan, ha, ih, List.mem_cons]
      constructor
      · rintro ⟨i, hi, h⟩; exact ⟨i, Or.inr hi, h⟩
      · rintro ⟨i, hi | hi, h⟩
        · subst hi; rw [ha] at h; cases h
        · exact ⟨i, hi, h⟩
    | ok n =>
      by_cases hn : (n == u) = true
      · have : n = u := by simpa using hn
        subst this
        simp only [userExistsScan, ha, hn, if_pos rfl]
        constructor
        · intro _; exact ⟨a, by simp, ha⟩
        · intro _; rfl
      · have hne : n ≠ u := by simpa using hn
        simp only [userExistsScan, ha, hn, Bool.false_eq_true, if_false, ih, List.mem_cons]
        constructor
        · rintro ⟨i, hi, h⟩; exact ⟨i, Or.inr hi, h⟩
        · rintro ⟨i, hi | hi, h⟩
          · subst hi; rw [ha] at h
            injection h with h
            exact absurd h hne
          · exact ⟨i, hi, h⟩

/-! ### Claim theorems -/

/-- C1: in `AttemptUserSetup`'s scan, if slot `k` (first slot whose name
query succeeds with a name equal to the requested username, as the claim's
"scanning stops at the first exact match" stipulates) lies in the scanned
range and some earlier slot `j` with `1 < j < k` is empty or fails its name
query, then the scan selects slot `k` — regardless of the content of every
slot after `k` — and never slot `j`. -/
theorem existing_match_beats_empty_candidate (u : String) (s : BMCState) (k j : Nat)
    (hk : k ∈ slotIDs (maskMaxUsers s.maxUsersRaw))
    (hmatch : s.names k = NameQuery.ok u)
    (hfirst : ∀ i ∈ slotIDs (maskMaxUsers s.maxUsersRaw), i < k →
      s.names i ≠ NameQuery.ok u)
    (hj : j ∈ slotIDs (maskMaxUsers s.maxUsersRaw)) (hjk : j < k)
    (hjc : claimableQ (s.names j) = true) :
    selectSlot u s = (true, k) ∧ k ≠ j := by
  refine ⟨?_, by omega⟩
  apply selectSlot_of_match u s k hk
  · rw [matchesQ_eq_true_iff]; exact hmatch
  · intro i hi hik; rw [matchesQ_eq_false_iff]; exact hfirst i hi hik

/-- Witness for C1: slot 2 is empty, slot 3 holds "sidero"; the scan claims
slot 3. -/
theorem existing_match_beats_empty_candidate_witness :
    selectSlot "sidero" emptyThenMatchState = (true, 3) ∧ 3 ≠ 2 :=
  existing_match_beats_empty_candidate "sidero" emptyThenMatchState 3 2
    (by decide) (by decide) (by decide) (by decide) (by decide) (by decide)

/-- C3 counterexample: slot 2 fails its name query, slot 3 successfully
reports an empty name, and no slot matches "sidero"; the scan records slot 2
and keeps it — the later successful empty-name slot 3 does NOT take
precedence over the earlier failed-query slot, contradicting the claim that
a failed-query slot is the lowest-precedence candidate. -/
theorem failed_query_slot_beats_later_empty :
    (selectSlot "sidero" failThenEmptyState).2 = 2 ∧
    failThenEmptyState.names 2 = NameQuery.err ∧
    failThenEmptyState.names 3 = NameQuery.ok "" ∧
    (∀ i ∈ slotIDs (maskMaxUsers failThenEmptyState.maxUsersRaw),
      failThenEmptyState.names i ≠ NameQuery.ok "sidero") ∧
    (selectSlot "sidero" failThenEmptyState).2 ≠ 3 := by
  refine ⟨rfl, rfl, rfl, by decide, by decide⟩

/-- C3 amended: a failed name query and a successful empty-name answer have
EQUAL candidate precedence: when no slot in the scanned range matches the
username, the target is the first claimable slot (failed-query or
empty-name, whichever comes first in ascending slot order); an exact match
anywhere in the scan still wins over any candidate. -/
theorem scan_candidate_is_first_claimable (u : String) (s : BMCState)
    (hnm : ∀ i ∈ slotIDs (maskMaxUsers s.maxUsersRaw), s.names i ≠ NameQuery.ok u) :
    selectSlot u s = (false, (firstClaimable (slotQueries s)).getD 0) := by
  rw [selectSlot_eq]
  have h : firstMatch u (slotQueries s) = none := by
    simp only [slotQueries]
    rw [firstMatch_map_none_iff]
    intro i hi
    rw [matchesQ_eq_false_iff]
    exact hnm i hi
  rw [h]

/-- Witness for the amended C3. -/
theorem scan_candidate_is_first_claimable_witness :
    selectSlot "sidero" failThenEmptyState =
      (false, (firstClaimable (slotQueries failThenEmptyState)).getD 0) :=
  scan_candidate_is_first_claimable "sidero" failThenEmptyState (by decide)

/-- C4: the provisioning scan never selects the reserved slot 1 as the
target, for every username and every BMC state; whereas `UserExists`
includes slot 1 in its scan: whenever the capacity read succeeds, slot 1 is
in range and slot 1 answers with the queried username, `UserExists` reports
true. -/
theorem reserved_slot_never_target_but_visible_to_userExists :
    (∀ (u : String) (s : BMCState), (selectSlot u s).2 ≠ 1) ∧
    (∀ (s : BMCState) (u : String), s.summaryErr = false →
      1 ≤ maskMaxUsers s.maxUsersRaw → s.names 1 = NameQuery.ok u →
      userExists u s = Except.ok true) := by
  constructor
  · intro u s
    rw [selectSlot]
    rcases scanLoop_snd_mem u (slotQueries s) false 0 with h | h
    · omega
    · have hmap : (slotQueries s).map Prod.fst = slotIDs (maskMaxUsers s.maxUsersRaw) := by
        simp only [slotQueries, List.map_map]
        have : (Prod.fst ∘ fun i => (i, s.names i)) = id := by
          funext i; rfl
        rw [this, List.map_id]
      rw [hmap] at h
      have := mem_slotIDs.1 h
      omega
  · intro s u hsum hm h1
    rw [userExists, hsum]
    have h : userExistsScan u s.names (List.range' 1 (maskMaxUsers s.maxUsersRaw)) = true := by
      rw [userExistsScan_iff]
      exact ⟨1, by rw [List.mem_range'_1]; omega, h1⟩
    simp [h]

/-- Witness for C4: a table whose only named slot is the reserved slot 1. -/
theorem reserved_slot_never_target_but_visible_to_userExists_witness :
    (selectSlot "admin" slot1OnlyState).2 ≠ 1 ∧
    userExists "admin" slot1OnlyState = Except.ok true :=
  ⟨reserved_slot_never_target_but_visible_to_userExists.1 "admin" slot1OnlyState,
   reserved_slot_never_target_but_visible_to_userExists.2 slot1OnlyState "admin"
     rfl (by decide) rfl⟩

/-- C5: when every slot in the scanned range `2..maxUsers` answers its name
query successfully with a non-matching name that is neither empty nor the
"(Empty User)" marker, `AttemptUserSetup` fails with the "no slot available
for user" error, leaves the BMC state unchanged, and issues no write
command at all. -/
theorem full_table_fails_without_writes (u p : String) (s : BMCState)
    (hsum : s.summaryErr = false)
    (hall : ∀ i ∈ slotIDs (maskMaxUsers s.maxUsersRaw),
      ∃ n, s.names i = NameQuery.ok n ∧ n ≠ u ∧ isEmptyName n = false) :
    attemptUserSetup u p s = (Except.error "no slot available for user", s, []) := by
  have h1 : firstMatch u (slotQueries s) = none := by
    simp only [slotQueries]
    rw [firstMatch_map_none_iff]
    intro i hi
    obtain ⟨n, hn, hne, _⟩ := hall i hi
    rw [matchesQ_eq_false_iff, hn]
    intro hc
    injection hc with hc
    exact hne hc
  have h2 : firstClaimable (slotQueries s) = none := by
    simp only [slotQueries]
    rw [firstClaimable_map_none_iff]
    intro i hi
    obtain ⟨n, hn, _, hemp⟩ := hall i hi
    rw [hn]
    simpa [claimableQ] using hemp
  have hsel : selectSlot u s = (false, 0) := by
    rw [selectSlot_eq, h1, h2]
    rfl
  rw [attemptUserSetup, hsum, hsel]
  simp

/-- Witness for C5: three slots, slot 2 holds "root" and slot 3 holds
"other"; provisioning "admin" fails without writes. -/
theorem full_table_fails_without_writes_witness :
    attemptUserSetup "admin" "pw" fullTableState =
      (Except.error "no slot available for user", fullTableState, []) :=
  full_table_fails_without_writes "admin" "pw" fullTableState rfl
    (by
      intro i hi
      have hmu : maskMaxUsers fullTableState.maxUsersRaw = 3 := rfl
      rw [hmu] at hi
      have h23 : i = 2 ∨ i = 3 := by
        have h := mem_slotIDs.1 hi
        omega
      rcases h23 with rfl | rfl
      · exact ⟨"root", rfl, by decide, by decide⟩
      · exact ⟨"other", rfl, by decide, by decide⟩)

/-- C2: on a table with at least one claimable-or-matching slot in the
scanned range, `AttemptUserSetup` succeeds; running it a second time with
the same username and password selects the same target slot (the second run
finds the account by exact username match), succeeds again, and leaves that
slot holding the given username and password, the administrator access
triple `0x91 / 0x04 / 0x00`, and the enabled flag. -/
theorem attemptUserSetup_idempotent (u p : String) (s : BMCState)
    (hsum : s.summaryErr = false)
    (hclaim : ∃ i ∈ slotIDs (maskMaxUsers s.maxUsersRaw),
      matchesQ u (s.names i) = true ∨ claimableQ (s.names i) = true) :
    (attemptUserSetup u p s).1 = Except.ok () ∧
    (selectSlot u (afterSetup u p s)).2 = (selectSlot u s).2 ∧
    (attemptUserSetup u p (afterSetup u p s)).1 = Except.ok () ∧
    (afterSetup u p (afterSetup u p s)).names (selectSlot u s).2 = NameQuery.ok u ∧
    (afterSetup u p (afterSetup u p s)).passwords (selectSlot u s).2 = p ∧
    (afterSetup u p (afterSetup u p s)).access (selectSlot u s).2 = (0x91, 0x04, 0x00) ∧
    (afterSetup u p (afterSetup u p s)).enabled (selectSlot u s).2 = true := by
  rcases hsel : selectSlot u s with ⟨ex0, t⟩
  have hsel' := selectSlot_eq u s
  rw [hsel] at hsel'
  have hkey : t ≠ 0 ∧ (ex0 = true → s.names t = NameQuery.ok u) := by
    cases hfm : firstMatch u (slotQueries s) with
    | some k =>
      rw [hfm] at hsel'
      simp only [Prod.mk.injEq] at hsel'
      obtain ⟨hex, hkt⟩ := hsel'
      have hmem := firstMatch_map_mem u s.names (slotIDs (maskMaxUsers s.maxUsersRaw)) k
      rw [← slotQueries] at hmem
      obtain ⟨hkmem, hkm⟩ := hmem hfm
      have h2 := mem_slotIDs.1 hkmem
      refine ⟨by omega, fun _ => ?_⟩
      rw [hkt]
      exact (matchesQ_eq_true_iff u (s.names k)).1 hkm
    | none =>
      rw [hfm] at hsel'
      simp only [Prod.mk.injEq] at hsel'
      obtain ⟨hex, ht⟩ := hsel'
      have hnomatch : ∀ i ∈ slotIDs (maskMaxUsers s.maxUsersRaw),
          matchesQ u (s.names i) = false := by
        have h := (firstMatch_map_none_iff u s.names (slotIDs (maskMaxUsers s.maxUsersRaw))).1
        rw [← slotQueries] at h
        exact h hfm
      cases hfc : firstClaimable (slotQueries s) with
      | none =>
        exfalso
        have h := (firstClaimable_map_none_iff s.names (slotIDs (maskMaxUsers s.maxUsersRaw))).1
        rw [← slotQueries] at h
        obtain ⟨i, hi, hcase⟩ := hclaim
        rcases hcase with hm | hc
        · rw [hnomatch i hi] at hm; cases hm
        · rw [h hfc i hi] at hc; cases hc
      | some c =>
        rw [hfc] at ht
        have hmem := firstClaimable_map_mem s.names (slotIDs (maskMaxUsers s.maxUsersRaw)) c
        rw [← slotQueries] at hmem
        obtain ⟨hcmem, _⟩ := hmem hfc
        have h2 := mem_slotIDs.1 hcmem
        refine ⟨by simp at ht; omega, fun hex' => ?_⟩
        rw [hex] at hex'
        exact Bool.noConfusion hex'
  obtain ⟨ht, hmatcht⟩ := hkey
  have hrun1 := attemptUserSetup_success u p s ex0 t hsum hsel ht
  have hst1 := afterSetup_eq u p s ex0 t hsum hsel ht
  have hsum1 : (afterSetup u p s).summaryErr = false := by
    rw [hst1]
    cases ex0 <;> simp [enableUser, setUserAccess, setUserPass, setUserName, hsum]
  have hsel1 : selectSlot u (afterSetup u p s) = (true, t) :=
    selectSlot_after u p s ex0 t hsum hsel ht
  have hnames1 : (afterSetup u p s).names t = NameQuery.ok u := by
    rw [hst1]
    cases ex0 with
    | false => simp [enableUser, setUserAccess, setUserPass, setUserName]
    | true => simpa [enableUser, setUserAccess, setUserPass] using hmatcht rfl
  have hrun2 := attemptUserSetup_success u p (afterSetup u p s) true t hsum1 hsel1 ht
  have hst2 := afterSetup_eq u p (afterSetup u p s) true t hsum1 hsel1 ht
  refine ⟨by rw [hrun1], by rw [hsel1], by rw [hrun2], ?_, ?_, ?_, ?_⟩
  · show (afterSetup u p (afterSetup u p s)).names t = NameQuery.ok u
    rw [hst2]
    simpa [enableUser, setUserAccess, setUserPass] using hnames1
  · show (afterSetup u p (afterSetup u p s)).passwords t = p
    rw [hst2]
    simp [enableUser, setUserAccess, setUserPass]
  · show (afterSetup u p (afterSetup u p s)).access t = (0x91, 0x04, 0x00)
    rw [hst2]
    simp [enableUser, setUserAccess, setUserPass]
  · show (afterSetup u p (afterSetup u p s)).enabled t = true
    rw [hst2]
    simp [enableUser, setUserAccess, setUserPass]

/-- Witness for C2: a two-slot table whose slot 2 is empty; setting up
"admin"/"pw" twice is stable. -/
theorem attemptUserSetup_idempotent_witness :
    (attemptUserSetup "admin" "pw" oneEmptySlotState).1 = Except.ok () ∧
    (selectSlot "admin" (afterSetup "admin" "pw" oneEmptySlotState)).2 =
      (selectSlot "admin" oneEmptySlotState).2 ∧
    (attemptUserSetup "admin" "pw" (afterSetup "admin" "pw" oneEmptySlotState)).1 =
      Except.ok () ∧
    (afterSetup "admin" "pw" (afterSetup "admin" "pw" oneEmptySlotState)).names
      (selectSlot "admin" oneEmptySlotState).2 = NameQuery.ok "admin" ∧
    (afterSetup "admin" "pw" (afterSetup "admin" "pw" oneEmptySlotState)).passwords
      (selectSlot "admin" oneEmptySlotState).2 = "pw" ∧
    (afterSetup "admin" "pw" (afterSetup "admin" "pw" oneEmptySlotState)).access
      (selectSlot "admin" oneEmptySlotState).2 = (0x91, 0x04, 0x00) ∧
    (afterSetup "admin" "pw" (afterSetup "admin" "pw" oneEmptySlotState)).enabled
      (selectSlot "admin" oneEmptySlotState).2 = true :=
  attemptUserSetup_idempotent "admin" "pw" oneEmptySlotState rfl
    ⟨2, by decide, Or.inr (by decide)⟩

/-- C8 counterexample: `GetIPPort` returns the transport error of the failing
LAN-configuration read unchanged — it adds no indication of which parameter
failed.  The same bare error value is returned whether the IP-address read
(parameter 3) fails or the port read (parameter 8) fails, so the error
cannot name the failing parameter. -/
theorem getIPPort_error_does_not_name_parameter :
    lanIpFailState.lan 3 = Except.error "send failed" ∧
    lanPortFailState.lan 3 = Except.ok [192, 168, 1, 50] ∧
    lanPortFailState.lan 8 = Except.error "send failed" ∧
    (getIPPort lanIpFailState).1 = Except.error "send failed" ∧
    (getIPPort lanPortFailState).1 = Except.error "send failed" :=
  ⟨rfl, rfl, rfl, rfl, rfl⟩

/-- C8 amended: `GetIPPort` reads LAN parameter 3 (IP address) and then
parameter 8 (port); on success it decodes the 4-byte network-order address
to dotted-quad form and the 2-byte little-endian port, having issued exactly
the two reads in that order; on failure of either read it aborts and
returns the underlying transport error unchanged (which need not identify
the parameter) with no endpoint value. -/
theorem getIPPort_reads_and_decodes (s : BMCState) :
    (∀ a b c d pl ph : Nat,
      s.lan 3 = Except.ok [a, b, c, d] → s.lan 8 = Except.ok [pl, ph] →
      getIPPort s =
        (Except.ok
          (toString a ++ "." ++ toString b ++ "." ++ toString c ++ "." ++ toString d,
           pl + 256 * ph), [3, 8])) ∧
    (∀ e, s.lan 3 = Except.error e → getIPPort s = (Except.error e, [3])) ∧
    (∀ d e, s.lan 3 = Except.ok d → s.lan 8 = Except.error e →
      getIPPort s = (Except.error e, [3, 8])) := by
  refine ⟨?_, ?_, ?_⟩
  · intro a b c d pl ph h3 h8
    rw [getIPPort, h3, h8]
    simp [ipv4String, leUint16]
  · intro e h3
    rw [getIPPort, h3]
  · intro d e h3 h8
    rw [getIPPort, h3, h8]

/-- Witness for the amended C8, on the claim's example bytes. -/
theorem getIPPort_reads_and_decodes_witness :
    getIPPort powerDemoState = (Except.ok ("192.168.1.50", 623), [3, 8]) :=
  (getIPPort_reads_and_decodes powerDemoState).1 192 168 1 50 111 2 rfl rfl

/-- The device loop of `WipeDisks` computes filter-then-map. -/
theorem buildWipeDescriptors_eq (method : WipeMethod) (disks : List Disk) :
    buildWipeDescriptors method disks =
      (disks.filter fun d => !(d.readonly || d.cdrom)).map
        (fun d => { device := d.id, method := method, skipVolumeCheck := true }) := by
  induction disks with
  | nil => rfl
  | cons d rest ih =>
    cases hr : d.readonly <;> cases hc : d.cdrom <;>
      simp [buildWipeDescriptors, List.filter_cons, ih, hr, hc]

/-- C9: the batched wipe request contains exactly the non-read-only,
non-optical devices (in inventory order); every descriptor carries the
zero-fill method when `zeroes` is true and the fast-wipe method when it is
false, and has the volume-safety check bypassed. -/
theorem wipeDisks_request_spec (zeroes : Bool) (disks : List Disk) :
    wipeDisksRequest zeroes disks =
      (disks.filter fun d => !(d.readonly || d.cdrom)).map
        (fun d => { device := d.id,
                    method := if zeroes then WipeMethod.zeroes else WipeMethod.fast,
                    skipVolumeCheck := true }) ∧
    ∀ desc ∈ wipeDisksRequest zeroes disks,
      desc.skipVolumeCheck = true ∧
      desc.method = (if zeroes then WipeMethod.zeroes else WipeMethod.fast) := by
  have h := buildWipeDescriptors_eq (if zeroes then WipeMethod.zeroes else WipeMethod.fast) disks
  refine ⟨h, ?_⟩
  intro desc hdesc
  rw [wipeDisksRequest, h] at hdesc
  obtain ⟨d, _, rfl⟩ := List.mem_map.1 hdesc
  exact ⟨rfl, rfl⟩

/-- Witness for C9: of the demonstration inventory only "sda" is wiped, with
the zero-fill method and the volume check bypassed. -/
theorem wipeDisks_request_spec_witness :
    wipeDisksRequest true demoDisks =
      [{ device := "sda", method := WipeMethod.zeroes, skipVolumeCheck := true }] ∧
    ({ device := "sda", method := WipeMethod.zeroes, skipVolumeCheck := true} :
        WipeDescriptor).skipVolumeCheck = true ∧
    ({ device := "sda", method := WipeMethod.zeroes, skipVolumeCheck := true} :
        WipeDescriptor).method = WipeMethod.zeroes :=
  ⟨((wipeDisks_request_spec true demoDisks).1).trans (by decide),
   ((wipeDisks_request_spec true demoDisks).2
      { device := "sda", method := WipeMethod.zeroes, skipVolumeCheck := true}
      (by decide)).1,
   ((wipeDisks_request_spec true demoDisks).2
      { device := "sda", method := WipeMethod.zeroes, skipVolumeCheck := true}
      (by decide)).2⟩

/-- C10: `UserExists` matches by exact string equality with no
normalization and no emptiness guard: whenever the capacity read succeeds
it reports true exactly when some slot in `1..maxUsers` answers its name
query successfully with a name equal to the argument; in particular, on a
state whose slot 2 merely reports an empty name, `GetPowerManagement` with
an empty check-username reports `userExists = true`. -/
theorem userExists_exact_equality_no_guard :
    (∀ (u : String) (s : BMCState), s.summaryErr = false →
      (userExists u s = Except.ok true ↔
        ∃ i ∈ List.range' 1 (maskMaxUsers s.maxUsersRaw),
          s.names i = NameQuery.ok u)) ∧
    powerDemoState.names 2 = NameQuery.ok "" ∧
    getPowerManagementBody "" powerDemoState =
      Except.ok { address := "192.168.1.50", port := 623, userExists := true } := by
  refine ⟨?_, rfl, rfl⟩
  intro u s hsum
  rw [userExists, hsum]
  simp only [Bool.false_eq_true, if_false, Except.ok.injEq]
  exact userExistsScan_iff u s.names _

/-- Witness for C10 at the demonstration state and the empty username. -/
theorem userExists_exact_equality_no_guard_witness :
    userExists "" powerDemoState = Except.ok true ↔
      ∃ i ∈ List.range' 1 (maskMaxUsers powerDemoState.maxUsersRaw),
        powerDemoState.names i = NameQuery.ok "" :=
  userExists_exact_equality_no_guard.1 "" powerDemoState rfl

theorem hexEncodeChars_length (l : List Nat) :
    (hexEncodeChars l).length = 2 * l.length := by
  induction l with
  | nil => rfl
  | cons b rest ih =>
    simp only [hexEncodeChars, List.length_cons, ih]
    omega

theorem md5Bytes_length (msg : List Nat) : (md5Bytes msg).length = 16 := by
  simp [md5Bytes, leBytes]

theorem md5Hex_length (b : List Nat) : (md5Hex b).length = 32 := by
  show (hexEncodeChars (md5Bytes b)).length = 32
  rw [hexEncodeChars_length, md5Bytes_length]

theorem string_append_inj (s1 t1 s2 t2 : String)
    (h : s1 ++ t1 = s2 ++ t2) (hl : t1.length = t2.length) : s1 = s2 ∧ t1 = t2 := by
  have hd : s1.data ++ t1.data = s2.data ++ t2.data := by
    rw [← String.data_append, ← String.data_append, h]
  obtain ⟨h1, h2⟩ := List.append_inj' hd hl
  exact ⟨String.ext h1, String.ext h2⟩

theorem runSingleflightKey_inj (m1 m2 : String) (b1 b2 : List Nat)
    (h : runSingleflightKey m1 b1 = runSingleflightKey m2 b2) :
    m1 = m2 ∧ md5Hex b1 = md5Hex b2 := by
  rw [runSingleflightKey, runSingleflightKey] at h
  obtain ⟨h1, h2⟩ :=
    string_append_inj (m1 ++ "-") (md5Hex b1) (m2 ++ "-") (md5Hex b2) h
      (by rw [md5Hex_length, md5Hex_length])
  obtain ⟨h3, _⟩ := string_append_inj m1 "-" m2 "-" h1 rfl
  exact ⟨h3, h2⟩

theorem fullMethodName_inj (m1 m2 : RPCMethod)
    (h : fullMethodName m1 = fullMethodName m2) : m1 = m2 := by
  cases m1 <;> cases m2 <;> first | rfl | (exfalso; exact absurd h (by decide))

theorem dispatchKey_ne_hello (m : RPCMethod) (hm : m ≠ RPCMethod.hello)
    (b : List Nat) :
    dispatchKey m b = some (runSingleflightKey (fullMethodName m) b) := by
  cases m with
  | hello => exact absurd rfl hm
  | getPowerManagement => rfl
  | setPowerManagement => rfl
  | reboot => rfl
  | wipeDisks => rfl

/-- C6 counterexample: the `Hello` handler of service.go returns its
response directly and never calls `runSingleflight`; at the concrete
serialized `HelloRequest` (the empty byte string — `HelloRequest` has no
fields) there is no coalescing key, contradicting the claim that every one
of the five RPC methods is dispatched through the Coalescing Layer. -/
theorem hello_bypasses_coalescing : dispatchKey RPCMethod.hello [] = none := rfl

/-- C6 amended: `GetPowerManagement`, `SetPowerManagement`, `Reboot` and
`WipeDisks` — but not `Hello`, which is served directly — dispatch through
the coalescing layer with the key "method full name" + "-" + hex(MD5 of the
serialized request).  Two coalesced calls share a key exactly when they are
to the same method and their serialized requests have the same MD5 digest:
calls to different methods are never coalesced, byte-identical requests to
the same method always are, and different payloads to the same method are
coalesced only in the event of an MD5 collision. -/
theorem facade_dispatch_keys :
    (∀ b : List Nat, dispatchKey RPCMethod.hello b = none) ∧
    (∀ m : RPCMethod, m ≠ RPCMethod.hello → ∀ b : List Nat,
      dispatchKey m b = some (runSingleflightKey (fullMethodName m) b)) ∧
    (∀ (m1 m2 : RPCMethod) (b1 b2 : List Nat),
      m1 ≠ RPCMethod.hello → m2 ≠ RPCMethod.hello →
      dispatchKey m1 b1 = dispatchKey m2 b2 →
      m1 = m2 ∧ md5Hex b1 = md5Hex b2) := by
  refine ⟨fun _ => rfl, dispatchKey_ne_hello, ?_⟩
  intro m1 m2 b1 b2 hm1 hm2 h
  rw [dispatchKey_ne_hello m1 hm1 b1, dispatchKey_ne_hello m2 hm2 b2] at h
  injection h with h
  obtain ⟨h1, h2⟩ := runSingleflightKey_inj _ _ _ _ h
  exact ⟨fullMethodName_inj m1 m2 h1, h2⟩

/-- Witness for the amended C6 at concrete inputs. -/
theorem facade_dispatch_keys_witness :
    dispatchKey RPCMethod.hello [7] = none ∧
    dispatchKey RPCMethod.reboot [] =
      some (runSingleflightKey (fullMethodName RPCMethod.reboot) []) ∧
    (RPCMethod.reboot = RPCMethod.reboot ∧ md5Hex [] = md5Hex []) :=
  ⟨facade_dispatch_keys.1 [7],
   facade_dispatch_keys.2.1 RPCMethod.reboot (by decide) [],
   facade_dispatch_keys.2.2 RPCMethod.reboot RPCMethod.reboot [] []
     (by decide) (by decide) rfl⟩

/-- C7 counterexample: the closure that the `Reboot` handler hands to the
coalescing layer captures the initiating call's context
(`s.talosClient.Reboot(ctx, ...)` in service.go).  When that initiating
caller's context is cancelled, the shared flight fails with the
cancellation error, and a second waiter whose own context is still live
receives that failure — the underlying operation does not continue to
completion for the other waiters, contradicting the claim; the same flight
completes when the initiating context stays live. -/
theorem initiator_cancellation_aborts_shared_reboot :
    waiterResult false "" (rebootFlight true) = Except.error "context canceled" ∧
    rebootFlight false = Except.ok () :=
  ⟨rfl, rfl⟩

/-- C7 amended: a waiting caller whose own context is done receives its own
context error (never a protocol error), and a waiter's cancellation does
not influence the shared flight outcome delivered to other waiters — the
flight outcome depends only on the initiating call's context; however,
because the `Reboot` closure captures the initiating context, cancellation
of the INITIATING caller aborts the shared reboot with a cancellation
error, while the flight completes when the initiating context stays live. -/
theorem coalesced_cancellation_semantics :
    (∀ (e : String) (flight : Except String Unit),
      waiterResult true e flight = Except.error e) ∧
    (∀ flight : Except String Unit, waiterResult false "" flight = flight) ∧
    rebootFlight true = Except.error "context canceled" ∧
    rebootFlight false = Except.ok () :=
  ⟨fun _ _ => rfl, fun _ => rfl, rfl, rfl⟩

end MetalAgent
